import Mathlib

/-!
Verification development for the Huff parser (`huff_parser/src/lib.rs`).

The Rust parser is shallowly embedded: the parser struct becomes an explicit
state record, every parser method becomes a Lean function on that state, and
the `while` loops take an explicit fuel parameter (result `POut.oot` means the
loop was still running when the fuel ran out, i.e. the Rust loop would not
have terminated within that many iterations).  Rust panics (`unwrap` on
`None`, out-of-range indexing) are modelled by the `POut.panic` outcome.

External collaborators (the filesystem, `FileSource::localize_file`, the
Keccak-256 hasher, and the `huff_utils` helpers `str_to_bytes32`,
`TableKind::from` and the `Display` instance of `TokenKind`) are not part of
the parser source; they are either taken as parameters or modelled from the
specification, as marked in the corresponding doc comments.
-/

namespace Huff

/-- A source span: `(start, end)` region of source text for diagnostics.
(The Rust `Span` also carries a file handle; it plays no role in the parser
logic and is elided.) -/
structure Span where
  start : Nat
  stop : Nat
deriving DecidableEq

/-- `PrimitiveEVMType` from `huff_utils::types`. -/
inductive PrimitiveEVMType where
  | Uint (size : Nat)
  | Bytes (size : Nat)
  | Bool
  | Address
  | String
  | DynBytes
  | Int (size : Nat)
deriving DecidableEq

/-- `TokenKind` from `huff_utils::token`. -/
inductive TokenKind where
  | Define
  | Include
  | Function
  | Event
  | Constant
  | Macro
  | JumpTable
  | JumpTablePacked
  | CodeTable
  | Takes
  | Returns
  | View
  | Pure
  | Payable
  | NonPayable
  | Indexed
  | FreeStoragePointer
  | OpenBrace
  | CloseBrace
  | OpenParen
  | CloseParen
  | OpenBracket
  | CloseBracket
  | LeftAngle
  | RightAngle
  | Comma
  | Colon
  | Assign
  | Ident (s : String)
  | Str (s : String)
  | Num (n : Nat)
  | Literal (v : List Nat)
  | Opcode (o : String)
  | Label (l : String)
  | PrimitiveType (p : PrimitiveEVMType)
  | ArrayType (p : PrimitiveEVMType) (dims : List Nat)
  | BuiltinFunction (f : String)
  | Whitespace
  | Comment (c : String)
  | Eof
deriving DecidableEq

/-- `std::mem::discriminant` on `TokenKind`: constructor tag, payloads ignored. -/
def TokenKind.disc : TokenKind → Nat
  | .Define => 0
  | .Include => 1
  | .Function => 2
  | .Event => 3
  | .Constant => 4
  | .Macro => 5
  | .JumpTable => 6
  | .JumpTablePacked => 7
  | .CodeTable => 8
  | .Takes => 9
  | .Returns => 10
  | .View => 11
  | .Pure => 12
  | .Payable => 13
  | .NonPayable => 14
  | .Indexed => 15
  | .FreeStoragePointer => 16
  | .OpenBrace => 17
  | .CloseBrace => 18
  | .OpenParen => 19
  | .CloseParen => 20
  | .OpenBracket => 21
  | .CloseBracket => 22
  | .LeftAngle => 23
  | .RightAngle => 24
  | .Comma => 25
  | .Colon => 26
  | .Assign => 27
  | .Ident _ => 28
  | .Str _ => 29
  | .Num _ => 30
  | .Literal _ => 31
  | .Opcode _ => 32
  | .Label _ => 33
  | .PrimitiveType _ => 34
  | .ArrayType _ _ => 35
  | .BuiltinFunction _ => 36
  | .Whitespace => 37
  | .Comment _ => 38
  | .Eof => 39

/-- A lexer token: kind plus span. -/
structure Token where
  kind : TokenKind
  span : Span
deriving DecidableEq

/-- String rendering of a primitive EVM type.
Modelled from the spec: the `Display` instance lives in `huff_utils` (not
under `src/`); the spec calls it the "arg_type stringification" producing
canonical Solidity-style type names such as `uint256`. -/
def primTypeString : PrimitiveEVMType → String
  | .Uint n => "uint" ++ Nat.repr n
  | .Bytes n => "bytes" ++ Nat.repr n
  | .Bool => "bool"
  | .Address => "address"
  | .String => "string"
  | .DynBytes => "bytes"
  | .Int n => "int" ++ Nat.repr n

/-- String rendering of a token kind (`.to_string()` in the Rust source).
Modelled from the spec: `Display for TokenKind` lives in `huff_utils` (not
under `src/`); payload-carrying kinds render their payload, keywords render
their source text. -/
def tokenKindString : TokenKind → String
  | .Define => "#define"
  | .Include => "#include"
  | .Function => "function"
  | .Event => "event"
  | .Constant => "constant"
  | .Macro => "macro"
  | .JumpTable => "jumptable"
  | .JumpTablePacked => "jumptable__packed"
  | .CodeTable => "table"
  | .Takes => "takes"
  | .Returns => "returns"
  | .View => "view"
  | .Pure => "pure"
  | .Payable => "payable"
  | .NonPayable => "nonpayable"
  | .Indexed => "indexed"
  | .FreeStoragePointer => "FREE_STORAGE_POINTER()"
  | .OpenBrace => "\x7b"
  | .CloseBrace => "\x7d"
  | .OpenParen => "("
  | .CloseParen => ")"
  | .OpenBracket => "["
  | .CloseBracket => "]"
  | .LeftAngle => "<"
  | .RightAngle => ">"
  | .Comma => ","
  | .Colon => ":"
  | .Assign => "="
  | .Ident s => s
  | .Str s => s
  | .Num n => Nat.repr n
  | .Literal _ => "literal"
  | .Opcode o => o
  | .Label l => l
  | .PrimitiveType p => primTypeString p
  | .ArrayType p dims =>
      primTypeString p ++
        String.join (dims.map fun d => if d = 0 then "[]" else "[" ++ Nat.repr d ++ "]")
  | .BuiltinFunction f => f
  | .Whitespace => " "
  | .Comment c => c
  | .Eof => "EOF"

/-- `ParserErrorKind` from `huff_utils::error`. -/
inductive ParserErrorKind where
  | UnexpectedType (k : TokenKind)
  | InvalidDefinition
  | InvalidName (k : TokenKind)
  | InvalidImportPath (s : String)
  | InvalidConstantValue (k : TokenKind)
  | InvalidSingleArg (k : TokenKind)
  | InvalidMacroArgs (k : TokenKind)
  | InvalidTokenInMacroBody (k : TokenKind)
  | InvalidTokenInLabelDefinition (k : TokenKind)
  | InvalidTableBodyToken (k : TokenKind)
  | InvalidConstant (k : TokenKind)
  | InvalidArgCallIdent (k : TokenKind)
  | InvalidArgs (k : TokenKind)
  | InvalidUint256 (n : Nat)
  | InvalidInt (n : Nat)
  | InvalidBytes (n : Nat)
deriving DecidableEq

/-- `ParserError`: kind plus the accumulated span trail (`AstSpan`). -/
structure ParserError where
  kind : ParserErrorKind
  spans : List Span
deriving DecidableEq

/-- `Argument` AST node. -/
structure Argument where
  arg_type : Option String
  name : Option String
  indexed : Bool
  span : List Span
deriving DecidableEq

/-- `Argument::default()`. -/
instance : Inhabited Argument := ⟨⟨none, none, false, []⟩⟩

/-- `FunctionType`. -/
inductive FunctionType where
  | View
  | Pure
  | Payable
  | NonPayable
deriving DecidableEq

/-- `MacroArg`: an argument of a macro invocation. -/
inductive MacroArg where
  | Literal (v : List Nat)
  | Ident (s : String)
  | ArgCall (s : String)
deriving DecidableEq

mutual
/-- A `Statement`: a statement type tagged with its span trail. -/
inductive Statement where
  | mk (ty : StatementType) (span : List Span)

/-- `StatementType`: the statement forms of a macro/label/table body. -/
inductive StatementType where
  | Literal (v : List Nat)
  | Opcode (o : String)
  | MacroInvocation (name : String) (args : List MacroArg) (span : List Span)
  | LabelCall (l : String)
  | Label (name : String) (inner : List Statement) (span : List Span)
  | Constant (c : String)
  | ArgCall (a : String)
  | BuiltinFunctionCall (kind : String) (args : List Argument) (span : List Span)
end

/-- The statement type of a statement. -/
def Statement.ty : Statement → StatementType
  | .mk t _ => t

/-- The span trail of a statement. -/
def Statement.span : Statement → List Span
  | .mk _ sp => sp

/-- `Function` AST node. -/
structure Function where
  name : String
  signature : List Nat
  inputs : List Argument
  fn_type : FunctionType
  outputs : List Argument
  span : List Span

/-- `Event` AST node. -/
structure Event where
  name : String
  parameters : List Argument
  span : List Span

/-- `ConstVal`: value of a constant definition. -/
inductive ConstVal where
  | FreeStoragePointer
  | Literal (v : List Nat)
deriving DecidableEq

/-- `ConstantDefinition` AST node. -/
structure ConstantDefinition where
  name : String
  value : ConstVal
  span : List Span

/-- `MacroDefinition` AST node (the argument order of `MacroDefinition::new`). -/
structure MacroDefinition where
  name : String
  parameters : List Argument
  statements : List Statement
  takes : Nat
  returns : Nat
  span : List Span

/-- `TableKind`. -/
inductive TableKind where
  | JumpTable
  | JumpTablePacked
  | CodeTable
deriving DecidableEq

/-- `TableDefinition` AST node (the argument order of `TableDefinition::new`). -/
structure TableDefinition where
  name : String
  kind : TableKind
  statements : List Statement
  size_bytes32 : List Nat
  span : List Span

/-- The `Contract` root AST node. -/
structure Contract where
  imports : List String
  functions : List Function
  events : List Event
  constants : List ConstantDefinition
  macros : List MacroDefinition
  tables : List TableDefinition

/-- `Contract::default()`. -/
def Contract.empty : Contract := ⟨[], [], [], [], [], []⟩

/-- The parser state: the fields of the Rust `Parser` struct. -/
structure ParserState where
  tokens : List Token
  cursor : Nat
  current_token : Token
  base : Option String
  spans : List Span
deriving DecidableEq

/-- Outcome of running a parser function: success with a value and the updated
state, a structured parse error, a Rust panic, or out of fuel (the Rust loop
was still running after the given number of iterations). -/
inductive POut (α : Type) where
  | ok (a : α) (s : ParserState)
  | err (e : ParserError)
  | panic
  | oot

/-- Sequencing of parser outcomes (the implicit `?`/`;` of the Rust methods). -/
def POut.bind {α β : Type} : POut α → (α → ParserState → POut β) → POut β
  | .ok a s, f => f a s
  | .err e, _ => .err e
  | .panic, _ => .panic
  | .oot, _ => .oot

/-- `Parser::check`: discriminant comparison with the current token, no advance. -/
def check (s : ParserState) (kind : TokenKind) : Bool :=
  s.current_token.kind.disc == kind.disc

/-- `Parser::peek`: `None` (modelled `some none`) if `cursor >= tokens.len()`,
otherwise `tokens[cursor + 1]` — whose `.get(..).unwrap()` panics (modelled
`none`) when `cursor + 1` is itself out of range. -/
def peek (s : ParserState) : Option (Option Token) :=
  if s.tokens.length ≤ s.cursor then
    some none
  else
    match s.tokens.get? (s.cursor + 1) with
    | some t => some (some t)
    | none => none

/-- `Parser::peek_behind`: `None` if `cursor == 0 || cursor > tokens.len()`,
otherwise `tokens[cursor - 1]` (always in range in that branch). -/
def peek_behind (s : ParserState) : Option Token :=
  if s.cursor = 0 ∨ s.tokens.length < s.cursor then
    none
  else
    s.tokens.get? (s.cursor - 1)

/-- `Parser::consume`: push the current span, refresh the current token from
`peek().unwrap()` (panic — `none` — if `peek` panics or returns `None`),
advance the cursor. -/
def consume (s : ParserState) : Option ParserState :=
  let s1 : ParserState := { s with spans := s.spans ++ [s.current_token.span] }
  match peek s1 with
  | some (some t) => some { s1 with current_token := t, cursor := s1.cursor + 1 }
  | some none => none
  | none => none

/-- `consume` wrapped as a parser outcome. -/
def consumeP (s : ParserState) : POut Unit :=
  match consume s with
  | some s1 => .ok () s1
  | none => .panic

/-- `Parser::match_kind`: on discriminant match consume and return the actual
current kind, otherwise fail `UnexpectedType(expected)` with the accumulated
spans. -/
def match_kind (kind : TokenKind) (s : ParserState) : POut TokenKind :=
  if s.current_token.kind.disc = kind.disc then
    let curr := s.current_token.kind
    match consume s with
    | some s1 => .ok curr s1
    | none => .panic
  else
    .err ⟨.UnexpectedType kind, s.spans⟩

/-- Fetch `peek_behind().unwrap().kind` (panic when `peek_behind` is `None`). -/
def behind_kind (s : ParserState) : POut TokenKind :=
  match peek_behind s with
  | some t => .ok t.kind s
  | none => .panic

/-- Replace the first occurrence of `pat` in `s` by `sub` (Rust
`str::replacen(pat, sub, 1)`). -/
def replaceFirst (s pat sub : String) : String :=
  match s.splitOn pat with
  | p1 :: p2 :: rest => p1 ++ sub ++ String.intercalate pat (p2 :: rest)
  | _ => s

/-- The external filesystem boundary of import validation: path localization
(`FileSource::localize_file`, defined in `huff_utils`) and the
`exists()` / `is_file()` checks, taken as parameters per the spec
("Filesystem resolution ... treated as external collaborators"). -/
structure FsEnv where
  localize : String → String → Option String
  pathExists : String → Bool
  pathIsFile : String → Bool

/-- `Parser::parse_imports`: match `#include`, match a `Str` token, read its
payload via `peek_behind`, localize against the base path (applying the
one-shot `contracts/contracts → contracts` rewrite), then require the path to
exist, be a file, and end with `.huff`. -/
def parse_imports (env : FsEnv) (s : ParserState) : POut String :=
  (match_kind .Include s).bind fun _ s =>
  (match_kind (.Str "x") s).bind fun _ s =>
  (behind_kind s).bind fun tok s =>
  (match tok with
   | .Str file_path => POut.ok file_path s
   | _ => POut.err ⟨.InvalidName tok, s.spans⟩).bind fun p0 s =>
  let p := match s.base with
    | some b => replaceFirst ((env.localize b p0).getD "") "contracts/contracts" "contracts"
    | none => p0
  if env.pathExists p && env.pathIsFile p && p.endsWith ".huff" then
    POut.ok p s
  else
    POut.err ⟨.InvalidImportPath p, s.spans⟩

/-- `Parser::parse_primitive_type`: bounds-check `Uint`/`Int`/`Bytes` sizes,
accept `Bool`/`Address`/`String`/`DynBytes` unconditionally; on success
consume the current token and return its kind. -/
def parse_primitive_type (prim : PrimitiveEVMType) (s : ParserState) : POut TokenKind :=
  match prim with
  | .Uint size =>
      if ¬(8 ≤ size ∧ size ≤ 256) ∨ size % 8 ≠ 0 then
        .err ⟨.InvalidUint256 size, [s.current_token.span]⟩
      else
        match_kind s.current_token.kind s
  | .Bytes size =>
      if ¬(1 ≤ size ∧ size ≤ 32) then
        .err ⟨.InvalidBytes size, [s.current_token.span]⟩
      else
        match_kind s.current_token.kind s
  | .Bool => match_kind s.current_token.kind s
  | .Address => match_kind s.current_token.kind s
  | .String => match_kind s.current_token.kind s
  | .DynBytes => match_kind s.current_token.kind s
  | .Int size =>
      if ¬(8 ≤ size ∧ size ≤ 256) ∨ size % 8 ≠ 0 then
        .err ⟨.InvalidInt size, [s.current_token.span]⟩
      else
        let curr_token_kind := s.current_token.kind
        (consumeP s).bind fun _ s => POut.ok curr_token_kind s

/-- `Parser::parse_arg_type`: a `PrimitiveType` is validated and returned; for
an `ArrayType` the inner primitive is run through `parse_primitive_type` with
the result of that call discarded (`let _ = ...` in the source) and the array
token itself returned; anything else fails `InvalidArgs`. -/
def parse_arg_type (s : ParserState) : POut TokenKind :=
  match s.current_token.kind with
  | .PrimitiveType prim => parse_primitive_type prim s
  | .ArrayType prim dims =>
      let token := TokenKind.ArrayType prim dims
      match parse_primitive_type prim s with
      | .ok _ s1 => .ok token s1
      | .err _ => .ok token s
      | .panic => .panic
      | .oot => .oot
  | kind => .err ⟨.InvalidArgs kind, [s.current_token.span]⟩

/-- One iteration of the `parse_args` loop: build a single `Argument`
(type phase, optional `indexed`, optional name, optional trailing comma). -/
def parse_args_one (select_name select_type has_indexed : Bool) (s : ParserState) :
    POut Argument :=
  (if select_type then
    let arg_spans := [s.current_token.span]
    (parse_arg_type s).bind fun t s =>
    let arg : Argument := ⟨some (tokenKindString t), none, false, []⟩
    if has_indexed && check s .Indexed then
      let arg_spans := arg_spans ++ [s.current_token.span]
      (consumeP s).bind fun _ s =>
      POut.ok ({ arg with indexed := true }, arg_spans) s
    else
      POut.ok (arg, arg_spans) s
  else
    POut.ok ((default : Argument), ([] : List Span)) s).bind fun pr s =>
  (if select_name && check s (.Ident "x") then
    let arg_spans := pr.2 ++ [s.current_token.span]
    (match_kind (.Ident "x") s).bind fun k s =>
    POut.ok ({ pr.1 with name := some (tokenKindString k) }, arg_spans) s
  else
    POut.ok pr s).bind fun pr s =>
  (if check s .Comma then consumeP s else POut.ok () s).bind fun _ s =>
  POut.ok { pr.1 with span := pr.2 } s

/-- The `while !self.check(TokenKind::CloseParen)` loop of `parse_args`. -/
def parse_args_loop (fuel : Nat) (select_name select_type has_indexed : Bool)
    (args : List Argument) (s : ParserState) : POut (List Argument) :=
  match fuel with
  | 0 => .oot
  | Nat.succ fuel =>
    if check s .CloseParen then
      POut.ok args s
    else
      (parse_args_one select_name select_type has_indexed s).bind fun arg s =>
      parse_args_loop fuel select_name select_type has_indexed (args ++ [arg]) s

/-- `Parser::parse_args`: open paren, the argument loop, close paren. -/
def parse_args (fuel : Nat) (select_name select_type has_indexed : Bool)
    (s : ParserState) : POut (List Argument) :=
  (match_kind .OpenParen s).bind fun _ s =>
  (parse_args_loop fuel select_name select_type has_indexed [] s).bind fun args s =>
  (match_kind .CloseParen s).bind fun _ s =>
  POut.ok args s

/-- `Parser::parse_single_arg`: `( Num )`, failing `InvalidSingleArg` when the
token between the parentheses is not a `Num`. -/
def parse_single_arg (s : ParserState) : POut Nat :=
  (match_kind .OpenParen s).bind fun _ s =>
  let single_arg_span := [s.current_token.span]
  match match_kind (.Num 0) s with
  | .ok (.Num value) s =>
      (match_kind .CloseParen s).bind fun _ s => POut.ok value s
  | .panic => .panic
  | .oot => .oot
  | _ => .err ⟨.InvalidSingleArg s.current_token.kind, single_arg_span⟩

/-- `Parser::parse_constant_push`: `[ Ident ]`, failing `InvalidConstant`. -/
def parse_constant_push (s : ParserState) : POut (String × Span) :=
  (match_kind .OpenBracket s).bind fun _ s =>
  match s.current_token.kind with
  | .Ident const_str =>
      let iden_span := s.current_token.span
      (consumeP s).bind fun _ s =>
      (match_kind .CloseBracket s).bind fun _ s =>
      POut.ok (const_str, iden_span) s
  | kind => .err ⟨.InvalidConstant kind, s.spans⟩

/-- `Parser::parse_arg_call`: `< Ident >`, failing `InvalidArgCallIdent`. -/
def parse_arg_call (s : ParserState) : POut (String × Span) :=
  (match_kind .LeftAngle s).bind fun _ s =>
  match s.current_token.kind with
  | .Ident arg_str =>
      let arg_call_span := s.current_token.span
      (consumeP s).bind fun _ s =>
      (match_kind .RightAngle s).bind fun _ s =>
      POut.ok (arg_str, arg_call_span) s
  | kind => .err ⟨.InvalidArgCallIdent kind, s.spans⟩

/-- The `while !self.check(TokenKind::CloseParen)` loop of
`parse_macro_call_args`. -/
def parse_macro_call_loop (fuel : Nat) (args : List MacroArg) (s : ParserState) :
    POut (List MacroArg) :=
  match fuel with
  | 0 => .oot
  | Nat.succ fuel =>
    if check s .CloseParen then
      POut.ok args s
    else
      ((match s.current_token.kind with
        | .Literal lit =>
            (consumeP s).bind fun _ s => POut.ok (args ++ [MacroArg.Literal lit]) s
        | .Ident ident =>
            (consumeP s).bind fun _ s => POut.ok (args ++ [MacroArg.Ident ident]) s
        | .LeftAngle =>
            (consumeP s).bind fun _ s =>
            (match_kind (.Ident "ARG_CALL") s).bind fun k s =>
            (match_kind .RightAngle s).bind fun _ s =>
            POut.ok (args ++ [MacroArg.ArgCall (tokenKindString k)]) s
        | arg => POut.err ⟨.InvalidMacroArgs arg, s.spans⟩) :
          POut (List MacroArg)).bind fun args s =>
      (if check s .Comma then consumeP s else POut.ok () s).bind fun _ s =>
      parse_macro_call_loop fuel args s

/-- `Parser::parse_macro_call_args`: open paren, the argument loop, then a
bare `consume()` of the closing parenthesis. -/
def parse_macro_call_args (fuel : Nat) (s : ParserState) : POut (List MacroArg) :=
  (match_kind .OpenParen s).bind fun _ s =>
  (parse_macro_call_loop fuel [] s).bind fun args s =>
  (consumeP s).bind fun _ s =>
  POut.ok args s

/-- `Parser::parse_macro_call`. -/
def parse_macro_call (fuel : Nat) (s : ParserState) : POut (List MacroArg) :=
  parse_macro_call_args fuel s

/-- The `while` loop of `parse_label`: statements until the next `Label` or
`}` (the terminator is not consumed). -/
def parse_label_loop (fuel : Nat) (stmts : List Statement) (s : ParserState) :
    POut (List Statement) :=
  match fuel with
  | 0 => .oot
  | Nat.succ fuel =>
    if check s (.Label "NEXT_LABEL") || check s .CloseBrace then
      POut.ok stmts s
    else
      match s.current_token.kind with
      | .Literal val =>
          let curr_spans := [s.current_token.span]
          (consumeP s).bind fun _ s =>
          parse_label_loop fuel (stmts ++ [Statement.mk (.Literal val) curr_spans]) s
      | .Opcode o =>
          let curr_spans := [s.current_token.span]
          (consumeP s).bind fun _ s =>
          parse_label_loop fuel (stmts ++ [Statement.mk (.Opcode o) curr_spans]) s
      | .Ident ident_str =>
          let ispan := s.current_token.span
          (match_kind (.Ident "MACRO_NAME") s).bind fun _ s =>
          ((match s.current_token.kind with
            | .OpenParen =>
                (parse_macro_call fuel s).bind fun lit_args s =>
                let curr_spans :=
                  match s.spans.findIdx? (fun sp => sp == ispan) with
                  | some i => ispan :: s.spans.drop (i + 1)
                  | none => [ispan]
                POut.ok (Statement.mk (.MacroInvocation ident_str lit_args curr_spans) curr_spans) s
            | _ => POut.ok (Statement.mk (.LabelCall ident_str) [ispan]) s) :
              POut Statement).bind fun st s =>
          parse_label_loop fuel (stmts ++ [st]) s
      | .OpenBracket =>
          (parse_constant_push s).bind fun cs s =>
          parse_label_loop fuel (stmts ++ [Statement.mk (.Constant cs.1) [cs.2]]) s
      | .LeftAngle =>
          (parse_arg_call s).bind fun ac s =>
          parse_label_loop fuel (stmts ++ [Statement.mk (.ArgCall ac.1) [ac.2]]) s
      | kind => POut.err ⟨.InvalidTokenInLabelDefinition kind, [s.current_token.span]⟩

/-- `Parser::parse_label`: match the `:` then the label-body loop. -/
def parse_label (fuel : Nat) (s : ParserState) : POut (List Statement) :=
  (match_kind .Colon s).bind fun _ s =>
  parse_label_loop fuel [] s

/-- The `while !self.check(TokenKind::CloseBrace)` loop of `parse_body`. -/
def parse_body_loop (fuel : Nat) (stmts : List Statement) (s : ParserState) :
    POut (List Statement) :=
  match fuel with
  | 0 => .oot
  | Nat.succ fuel =>
    if check s .CloseBrace then
      POut.ok stmts s
    else
      match s.current_token.kind with
      | .Literal val =>
          let curr_spans := [s.current_token.span]
          (consumeP s).bind fun _ s =>
          parse_body_loop fuel (stmts ++ [Statement.mk (.Literal val) curr_spans]) s
      | .Opcode o =>
          let curr_spans := [s.current_token.span]
          (consumeP s).bind fun _ s =>
          parse_body_loop fuel (stmts ++ [Statement.mk (.Opcode o) curr_spans]) s
      | .Ident ident_str =>
          let ispan := s.current_token.span
          (match_kind (.Ident "MACRO_NAME") s).bind fun _ s =>
          ((match s.current_token.kind with
            | .OpenParen =>
                (parse_macro_call fuel s).bind fun lit_args s =>
                let curr_spans :=
                  match s.spans.findIdx? (fun sp => sp == ispan) with
                  | some i => ispan :: s.spans.drop (i + 1)
                  | none => [ispan]
                POut.ok (Statement.mk (.MacroInvocation ident_str lit_args curr_spans) curr_spans) s
            | _ => POut.ok (Statement.mk (.LabelCall ident_str) [ispan]) s) :
              POut Statement).bind fun st s =>
          parse_body_loop fuel (stmts ++ [st]) s
      | .Label l =>
          let lspan := s.current_token.span
          (consumeP s).bind fun _ s =>
          (parse_label fuel s).bind fun inner s =>
          let curr_spans := inner.foldl (fun acc a => acc ++ a.span) [lspan]
          parse_body_loop fuel
            (stmts ++ [Statement.mk (.Label l inner curr_spans) curr_spans]) s
      | .OpenBracket =>
          (parse_constant_push s).bind fun cs s =>
          parse_body_loop fuel (stmts ++ [Statement.mk (.Constant cs.1) [cs.2]]) s
      | .LeftAngle =>
          (parse_arg_call s).bind fun ac s =>
          parse_body_loop fuel (stmts ++ [Statement.mk (.ArgCall ac.1) [ac.2]]) s
      | .BuiltinFunction f =>
          let bspan := s.current_token.span
          (match_kind (.BuiltinFunction "") s).bind fun _ s =>
          (parse_args fuel true false false s).bind fun args s =>
          let curr_spans := args.foldl (fun acc a => acc ++ a.span) [bspan]
          parse_body_loop fuel
            (stmts ++ [Statement.mk (.BuiltinFunctionCall f args curr_spans) curr_spans]) s
      | kind => POut.err ⟨.InvalidTokenInMacroBody kind, [s.current_token.span]⟩

/-- `Parser::parse_body`: `{`, the statement loop, `}`. -/
def parse_body (fuel : Nat) (s : ParserState) : POut (List Statement) :=
  (match_kind .OpenBrace s).bind fun _ s =>
  (parse_body_loop fuel [] s).bind fun stmts s =>
  (match_kind .CloseBrace s).bind fun _ s =>
  POut.ok stmts s

/-- `Parser::parse_function`: `function NAME (inputs) TYPE returns (outputs)`,
computing the 4-byte selector from the canonical signature string.  The
Keccak-256 hasher is the opaque external primitive of the spec and is taken
as the parameter `keccak`; `finalize` into a 4-byte buffer keeps the first 4
bytes of the digest.  The `arg_type.as_ref().unwrap()` of the source is
modelled by `Option.getD ""` (see the `arg_type` totality theorem for why the
default is never used). -/
def parse_function (keccak : String → List Nat) (fuel : Nat) (s : ParserState) :
    POut Function :=
  (match_kind .Function s).bind fun _ s =>
  (match_kind (.Ident "x") s).bind fun _ s =>
  (behind_kind s).bind fun tok s =>
  (match tok with
   | .Ident fn_name => POut.ok fn_name s
   | _ => POut.err ⟨.InvalidName tok, s.spans⟩).bind fun name s =>
  (parse_args fuel true true false s).bind fun inputs s =>
  ((match s.current_token.kind with
    | .View => POut.ok FunctionType.View s
    | .Pure => POut.ok FunctionType.Pure s
    | .Payable => POut.ok FunctionType.Payable s
    | .NonPayable => POut.ok FunctionType.NonPayable s
    | tok => POut.err ⟨.UnexpectedType tok, s.spans⟩) :
      POut FunctionType).bind fun fn_type s =>
  (consumeP s).bind fun _ s =>
  (match_kind .Returns s).bind fun _ s =>
  (parse_args fuel true true false s).bind fun outputs s =>
  let input_types := inputs.map fun (i : Argument) => i.arg_type.getD ""
  let signature :=
    (keccak (name ++ "(" ++ String.intercalate "," input_types ++ ")")).take 4
  POut.ok ⟨name, signature, inputs, fn_type, outputs, s.spans⟩ s

/-- `Parser::parse_event`: `event NAME (params)` with `indexed` allowed. -/
def parse_event (fuel : Nat) (s : ParserState) : POut Event :=
  (match_kind .Event s).bind fun _ s =>
  (match_kind (.Ident "x") s).bind fun _ s =>
  (behind_kind s).bind fun tok s =>
  (match tok with
   | .Ident event_name => POut.ok event_name s
   | _ => POut.err ⟨.InvalidName tok, s.spans⟩).bind fun name s =>
  (parse_args fuel true true true s).bind fun parameters s =>
  POut.ok ⟨name, parameters, s.spans⟩ s

/-- `Parser::parse_constant`: `constant NAME = (FREE_STORAGE_POINTER() | Literal)`;
note the name-mismatch arm raises `UnexpectedType` (not `InvalidName`), and the
span accumulator is cleared after the definition is built. -/
def parse_constant (s : ParserState) : POut ConstantDefinition :=
  (match_kind .Constant s).bind fun _ s =>
  (match_kind (.Ident "x") s).bind fun _ s =>
  (behind_kind s).bind fun tok s =>
  (match tok with
   | .Ident const_name => POut.ok const_name s
   | _ => POut.err ⟨.UnexpectedType tok, s.spans⟩).bind fun name s =>
  (match_kind .Assign s).bind fun _ s =>
  ((match s.current_token.kind with
    | .FreeStoragePointer =>
        (consumeP s).bind fun _ s => POut.ok ConstVal.FreeStoragePointer s
    | .Literal l =>
        (consumeP s).bind fun _ s => POut.ok (ConstVal.Literal l) s
    | kind => POut.err ⟨.InvalidConstantValue kind, s.spans⟩) :
      POut ConstVal).bind fun value s =>
  let new_spans := s.spans
  POut.ok ⟨name, value, new_spans⟩ { s with spans := [] }

/-- `Parser::parse_macro`: `macro NAME (params) = takes (N) returns (M) { body }`. -/
def parse_macro (fuel : Nat) (s : ParserState) : POut MacroDefinition :=
  (match_kind .Macro s).bind fun _ s =>
  (match_kind (.Ident "MACRO_NAME") s).bind fun k s =>
  let mname := tokenKindString k
  (parse_args fuel true false false s).bind fun margs s =>
  (match_kind .Assign s).bind fun _ s =>
  (match_kind .Takes s).bind fun _ s =>
  (parse_single_arg s).bind fun mtakes s =>
  (match_kind .Returns s).bind fun _ s =>
  (parse_single_arg s).bind fun mreturns s =>
  (parse_body fuel s).bind fun mstatements s =>
  POut.ok ⟨mname, margs, mstatements, mtakes, mreturns, s.spans⟩ s

/-- `TableKind::from(TokenKind)`.
Modelled from the spec: the conversion lives in `huff_utils` (not under
`src/`); `jumptable`/`jumptable__packed`/`table` map to the three table
kinds and nothing else converts. -/
def tableKindP (k : TokenKind) (s : ParserState) : POut TableKind :=
  match k with
  | .JumpTable => .ok TableKind.JumpTable s
  | .JumpTablePacked => .ok TableKind.JumpTablePacked s
  | .CodeTable => .ok TableKind.CodeTable s
  | _ => .panic

/-- An optional `match_kind` whose failure is discarded
(`let _ = self.match_kind(..)` in `parse_table`; the error path of
`match_kind` does not change the parser state). -/
def tryMatch (kind : TokenKind) (s : ParserState) : POut Unit :=
  match match_kind kind s with
  | .ok _ s1 => .ok () s1
  | .err _ => .ok () s
  | .panic => .panic
  | .oot => .oot

/-- The `while !self.check(TokenKind::CloseBrace)` loop of `parse_table_body`:
only `Ident` tokens, each becoming a `LabelCall`. -/
def parse_table_body_loop (fuel : Nat) (stmts : List Statement) (s : ParserState) :
    POut (List Statement) :=
  match fuel with
  | 0 => .oot
  | Nat.succ fuel =>
    if check s .CloseBrace then
      POut.ok stmts s
    else
      let new_spans := [s.current_token.span]
      match s.current_token.kind with
      | .Ident ident_str =>
          (consumeP s).bind fun _ s =>
          parse_table_body_loop fuel
            (stmts ++ [Statement.mk (.LabelCall ident_str) new_spans]) s
      | kind => POut.err ⟨.InvalidTableBodyToken kind, new_spans⟩

/-- `Parser::parse_table_body`: `{`, the `LabelCall` loop, `}`. -/
def parse_table_body (fuel : Nat) (s : ParserState) : POut (List Statement) :=
  (match_kind .OpenBrace s).bind fun _ s =>
  (parse_table_body_loop fuel [] s).bind fun stmts s =>
  (match_kind .CloseBrace s).bind fun _ s =>
  POut.ok stmts s

/-- The contribution of one table-body statement to a code table's byte size
(`l.len()` for a `LabelCall`, `0` otherwise — the source logs an error and
counts 0 for non-label-call statements). -/
def codeTableStmtLen (st : Statement) : Nat :=
  match st.ty with
  | .LabelCall l => l.length
  | _ => 0

/-- `str_to_bytes32` from `huff_utils::prelude`.
Modelled from the spec: the helper is defined in `huff_utils` (not under
`src/`); the spec says the size is "encoded as a 32-byte big-endian
representation of the decimal string", so the decimal string is read back as
a number and emitted as 32 big-endian bytes. -/
def str_to_bytes32 (s : String) : List Nat :=
  let n := s.foldl (fun acc c => acc * 10 + (c.toNat - 48)) 0
  (List.range 32).map fun i => n / 256 ^ (31 - i) % 256

/-- `Parser::parse_table`: table kind keyword, name, optional `()` and `=`,
then the body; the size is `len * 0x20` for a jump table, `len * 0x02` for a
packed jump table, and the summed `LabelCall` identifier lengths halved for a
code table, encoded through `str_to_bytes32`. -/
def parse_table (fuel : Nat) (s : ParserState) : POut TableDefinition :=
  (match_kind s.current_token.kind s).bind fun k s =>
  (tableKindP k s).bind fun kind s =>
  (match_kind (.Ident "TABLE_NAME") s).bind fun nk s =>
  let table_name := tokenKindString nk
  (tryMatch .OpenParen s).bind fun _ s =>
  (tryMatch .CloseParen s).bind fun _ s =>
  (tryMatch .Assign s).bind fun _ s =>
  (parse_table_body fuel s).bind fun table_statements s =>
  let size :=
    match kind with
    | TableKind.JumpTablePacked => table_statements.length * 0x02
    | TableKind.JumpTable => table_statements.length * 0x20
    | TableKind.CodeTable => (table_statements.map codeTableStmtLen).sum / 2
  POut.ok ⟨table_name, kind, table_statements, str_to_bytes32 (Nat.repr size), s.spans⟩ s

/-- The import loop of `Parser::parse`:
`while !check(Eof) && !check(Define) { imports.push(parse_imports()?) }`. -/
def parse_imports_loop (env : FsEnv) (fuel : Nat) (imports : List String)
    (s : ParserState) : POut (List String) :=
  match fuel with
  | 0 => .oot
  | Nat.succ fuel =>
    if check s .Eof || check s .Define then
      POut.ok imports s
    else
      (parse_imports env s).bind fun p s =>
      parse_imports_loop env fuel (imports ++ [p]) s

/-- The declaration loop of `Parser::parse`: clear the span accumulator, match
`#define`, dispatch on the current token kind, `InvalidDefinition` otherwise. -/
def parse_defs_loop (keccak : String → List Nat) (fuel : Nat) (c : Contract)
    (s : ParserState) : POut Contract :=
  match fuel with
  | 0 => .oot
  | Nat.succ fuel =>
    if check s .Eof then
      POut.ok c s
    else
      let s := { s with spans := ([] : List Span) }
      (match_kind .Define s).bind fun _ s =>
      match s.current_token.kind with
      | .Function =>
          (parse_function keccak fuel s).bind fun f s =>
          parse_defs_loop keccak fuel { c with functions := c.functions ++ [f] } s
      | .Event =>
          (parse_event fuel s).bind fun ev s =>
          parse_defs_loop keccak fuel { c with events := c.events ++ [ev] } s
      | .Constant =>
          (parse_constant s).bind fun cd s =>
          parse_defs_loop keccak fuel { c with constants := c.constants ++ [cd] } s
      | .Macro =>
          ( parse_macro fuel s).bind fun m s =>
          parse_defs_loop keccak fuel { c with macros := c.macros ++ [m] } s
      | .JumpTable =>
          (parse_table fuel s).bind fun t s =>
          parse_defs_loop keccak fuel { c with tables := c.tables ++ [t] } s
      | .JumpTablePacked =>
          (parse_table fuel s).bind fun t s =>
          parse_defs_loop keccak fuel { c with tables := c.tables ++ [t] } s
      | .CodeTable =>
          (parse_table fuel s).bind fun t s =>
          parse_defs_loop keccak fuel { c with tables := c.tables ++ [t] } s
      | _ => POut.err ⟨.InvalidDefinition, s.spans⟩

/-- Is a token trivia (`Whitespace` or `Comment`), i.e. removed by the
`retain` at the start of `Parser::parse`? -/
def isTrivia : TokenKind → Bool
  | .Whitespace => true
  | .Comment _ => true
  | _ => false

/-- `Parser::new` followed by `Parser::parse` on a token vector: `new` panics
on an empty vector (`tokens.get(0).unwrap()`); `parse` drops all trivia
tokens, resets the cursor (panicking if nothing is left), runs the import
loop and then the declaration loop. -/
def parseTokens (keccak : String → List Nat) (env : FsEnv) (fuel : Nat)
    (tokens : List Token) (base : Option String) : POut Contract :=
  match tokens.head? with
  | none => .panic
  | some _ =>
    let filtered := tokens.filter fun t => !(isTrivia t.kind)
    match filtered.head? with
    | none => .panic
    | some t0 =>
      (parse_imports_loop env fuel [] ⟨filtered, 0, t0, base, []⟩).bind fun imports s =>
      (parse_defs_loop keccak fuel { Contract.empty with imports := imports } s).bind
        fun c s =>
      POut.ok c s

/-! ## Basic inversion and evaluation lemmas -/

/-- Inversion for `POut.bind`: a successful sequence factors through a
successful first component. -/
theorem POut.bind_ok {α β : Type} {x : POut α} {f : α → ParserState → POut β}
    {b : β} {s' : ParserState} (h : x.bind f = .ok b s') :
    ∃ a s1, x = .ok a s1 ∧ f a s1 = .ok b s' := by
  cases x with
  | ok a s1 => exact ⟨a, s1, rfl, h⟩
  | err e => exact absurd h (by simp [POut.bind])
  | panic => exact absurd h (by simp [POut.bind])
  | oot => exact absurd h (by simp [POut.bind])

/-- When the next index is in range, `consume` succeeds and advances the
cursor, caches the next token and records the current span. -/
theorem consume_eq_some {s : ParserState} {t : Token}
    (h : s.tokens.get? (s.cursor + 1) = some t) :
    consume s = some ⟨s.tokens, s.cursor + 1, t, s.base,
      s.spans ++ [s.current_token.span]⟩ := by
  have hlt : s.cursor + 1 < s.tokens.length := by
    by_contra hle
    rw [List.get?_eq_none.mpr (by omega)] at h
    cases h
  simp only [consume, peek]
  rw [if_neg (by omega), h]

/-- `match_kind` on a kind with the current token's own discriminant always
consumes and returns the current kind. -/
theorem match_kind_self {s : ParserState} {t : Token}
    (h : s.tokens.get? (s.cursor + 1) = some t) :
    match_kind s.current_token.kind s = .ok s.current_token.kind
      ⟨s.tokens, s.cursor + 1, t, s.base, s.spans ++ [s.current_token.span]⟩ := by
  have hc : s.current_token.kind.disc = s.current_token.kind.disc := rfl
  unfold match_kind
  rw [if_pos hc, consume_eq_some h]

/-- `consumeP` under the same in-range hypothesis. -/
theorem consumeP_eq_ok {s : ParserState} {t : Token}
    (h : s.tokens.get? (s.cursor + 1) = some t) :
    consumeP s = .ok ()
      ⟨s.tokens, s.cursor + 1, t, s.base, s.spans ++ [s.current_token.span]⟩ := by
  unfold consumeP
  rw [consume_eq_some h]

/-- Success of the `Int` branch of `parse_primitive_type` (the branch that
consumes by hand rather than through `match_kind`). -/
theorem parse_primitive_type_int_ok {s : ParserState} {t : Token}
    (h : s.tokens.get? (s.cursor + 1) = some t) {n : Nat}
    (hb : 8 ≤ n ∧ n ≤ 256 ∧ n % 8 = 0) :
    parse_primitive_type (.Int n) s = .ok s.current_token.kind
      ⟨s.tokens, s.cursor + 1, t, s.base, s.spans ++ [s.current_token.span]⟩ := by
  simp only [parse_primitive_type]
  rw [if_neg (by omega)]
  show (consumeP s).bind _ = _
  rw [consumeP_eq_ok h]
  rfl

/-- A token kind that is not an `Ident` has a different discriminant from the
`Ident` sentinel. -/
theorem not_ident_disc {k : TokenKind} (h : ∀ str, k ≠ .Ident str) :
    ¬(k.disc = (TokenKind.Ident "x").disc) := by
  cases k
  case Ident s => exact absurd rfl (h s)
  all_goals simp [TokenKind.disc]

/-! ## C3: primitive-type bounds -/

/-- C3: `parse_primitive_type` accepts `Uint(n)` and `Int(n)` exactly when
`8 ≤ n ≤ 256` and `n % 8 = 0` (failing `InvalidUint256(n)` resp.
`InvalidInt(n)` otherwise), accepts `Bytes(n)` exactly when `1 ≤ n ≤ 32`
(failing `InvalidBytes(n)` otherwise), and accepts `Bool`, `Address`,
`String` and `DynBytes` unconditionally.  The hypothesis keeps the token
after the current one in range so that the consuming success path cannot
panic at the very end of the stream. -/
theorem parse_primitive_type_bounds (s : ParserState) (t : Token)
    (h : s.tokens.get? (s.cursor + 1) = some t) :
    (∀ n, (8 ≤ n ∧ n ≤ 256 ∧ n % 8 = 0 →
        ∃ s1, parse_primitive_type (.Uint n) s = .ok s.current_token.kind s1)
      ∧ (¬(8 ≤ n ∧ n ≤ 256 ∧ n % 8 = 0) →
        parse_primitive_type (.Uint n) s =
          .err ⟨.InvalidUint256 n, [s.current_token.span]⟩))
    ∧ (∀ n, (8 ≤ n ∧ n ≤ 256 ∧ n % 8 = 0 →
        ∃ s1, parse_primitive_type (.Int n) s = .ok s.current_token.kind s1)
      ∧ (¬(8 ≤ n ∧ n ≤ 256 ∧ n % 8 = 0) →
        parse_primitive_type (.Int n) s =
          .err ⟨.InvalidInt n, [s.current_token.span]⟩))
    ∧ (∀ n, (1 ≤ n ∧ n ≤ 32 →
        ∃ s1, parse_primitive_type (.Bytes n) s = .ok s.current_token.kind s1)
      ∧ (¬(1 ≤ n ∧ n ≤ 32) →
        parse_primitive_type (.Bytes n) s =
          .err ⟨.InvalidBytes n, [s.current_token.span]⟩))
    ∧ (∃ s1, parse_primitive_type .Bool s = .ok s.current_token.kind s1)
    ∧ (∃ s1, parse_primitive_type .Address s = .ok s.current_token.kind s1)
    ∧ (∃ s1, parse_primitive_type .String s = .ok s.current_token.kind s1)
    ∧ (∃ s1, parse_primitive_type .DynBytes s = .ok s.current_token.kind s1) := by
  have hmk := match_kind_self h
  have hcons := consume_eq_some h
  refine ⟨fun n => ⟨fun hb => ?_, fun hb => ?_⟩,
          fun n => ⟨fun hb => ?_, fun hb => ?_⟩,
          fun n => ⟨fun hb => ?_, fun hb => ?_⟩, ?_, ?_, ?_, ?_⟩
  · exact ⟨_, by simp only [parse_primitive_type]; rw [if_neg (by omega)]; exact hmk⟩
  · simp only [parse_primitive_type]; rw [if_pos (by omega)]
  · exact ⟨_, parse_primitive_type_int_ok h hb⟩
  · simp only [parse_primitive_type]; rw [if_pos (by omega)]
  · exact ⟨_, by simp only [parse_primitive_type]; rw [if_neg (by omega)]; exact hmk⟩
  · simp only [parse_primitive_type]; rw [if_pos (by omega)]
  · exact ⟨_, hmk⟩
  · exact ⟨_, hmk⟩
  · exact ⟨_, hmk⟩
  · exact ⟨_, hmk⟩

/-- Concrete state for the C3 witness: cursor on `uint256`, `Eof` after it. -/
def c3state : ParserState :=
  ⟨[⟨.PrimitiveType (.Uint 256), ⟨0, 7⟩⟩, ⟨.Eof, ⟨7, 7⟩⟩], 0,
   ⟨.PrimitiveType (.Uint 256), ⟨0, 7⟩⟩, none, []⟩

/-- Witness for C3: the in-range hypothesis holds on `c3state` and `uint256`
is accepted there. -/
theorem parse_primitive_type_bounds_witness :
    c3state.tokens.get? (c3state.cursor + 1) = some ⟨.Eof, ⟨7, 7⟩⟩ ∧
    (∃ s1, parse_primitive_type (.Uint 256) c3state =
      .ok c3state.current_token.kind s1) := by
  refine ⟨rfl, ?_⟩
  exact ((parse_primitive_type_bounds c3state ⟨.Eof, ⟨7, 7⟩⟩ rfl).1 256).1 (by omega)

/-! ## C4: nontermination of the argument loop on a stray token -/

/-- The token stream `( 0 )` — the `Num` between the parentheses is a stray
token that is neither an `Ident`, a `Comma` nor a `CloseParen`. -/
def c4tokens : List Token :=
  [⟨.OpenParen, ⟨0, 1⟩⟩, ⟨.Num 0, ⟨1, 2⟩⟩, ⟨.CloseParen, ⟨2, 3⟩⟩, ⟨.Eof, ⟨3, 3⟩⟩]

/-- The parser state just after `parse_args` consumed the opening
parenthesis of `c4tokens`: the current token is the stray `Num`. -/
def c4stuck : ParserState := ⟨c4tokens, 1, ⟨.Num 0, ⟨1, 2⟩⟩, none, [⟨0, 1⟩]⟩

/-- On the stuck state the argument loop makes no progress: every iteration
consumes nothing, raises no error, and recurses on the same state. -/
theorem c4_loop_stuck :
    ∀ (fuel : Nat) (args : List Argument),
      parse_args_loop fuel true false false args c4stuck = .oot := by
  intro fuel
  induction fuel with
  | zero => intro args; rfl
  | succ n ih => intro args; exact ih (args ++ [⟨none, none, false, []⟩])

/-- The initial state for `parse_args` over `c4tokens`. -/
def c4state : ParserState := ⟨c4tokens, 0, ⟨.OpenParen, ⟨0, 1⟩⟩, none, []⟩

/-- C4: there is a finite token stream — `( 0 )` — on which
`parse_args(select_name := true, select_type := false, has_indexed := false)`
does not terminate: for every fuel bound the loop is still running (`oot`),
because the stray `Num` token is never consumed and never raises an error. -/
theorem parse_args_nontermination :
    ∀ fuel, parse_args fuel true false false c4state = .oot := by
  intro fuel
  have h1 : match_kind .OpenParen c4state = .ok .OpenParen c4stuck := rfl
  show (match_kind .OpenParen c4state).bind _ = .oot
  rw [h1]
  show (parse_args_loop fuel true false false [] c4stuck).bind _ = .oot
  rw [c4_loop_stuck fuel []]
  rfl

/-! ## C5: array types discard the inner-primitive validation error -/

/-- Concrete state for the C5 counterexample: cursor on `uint7[]`. -/
def c5state : ParserState :=
  ⟨[⟨.ArrayType (.Uint 7) [0], ⟨0, 7⟩⟩, ⟨.Eof, ⟨7, 7⟩⟩], 0,
   ⟨.ArrayType (.Uint 7) [0], ⟨0, 7⟩⟩, none, []⟩

/-- Counterexample for C5: on `uint7[]` the claim says `parse_arg_type` fails
with `InvalidUint256(7)`; in fact the inner validation error is discarded
(`let _ = ...`) and the call succeeds with the array token, without moving
the cursor. -/
theorem parse_arg_type_uint7_array_ok :
    parse_arg_type c5state = .ok (.ArrayType (.Uint 7) [0]) c5state ∧
    ∀ e, parse_arg_type c5state ≠ .err e := by
  refine ⟨rfl, fun e h => ?_⟩
  rw [show parse_arg_type c5state = .ok (.ArrayType (.Uint 7) [0]) c5state from rfl] at h
  exact POut.noConfusion h

/-- Validity of a primitive EVM type under the `parse_primitive_type` rules. -/
def validPrimB : PrimitiveEVMType → Bool
  | .Uint n => decide (8 ≤ n ∧ n ≤ 256 ∧ n % 8 = 0)
  | .Int n => decide (8 ≤ n ∧ n ≤ 256 ∧ n % 8 = 0)
  | .Bytes n => decide (1 ≤ n ∧ n ≤ 32)
  | _ => true

/-- C5 (amended): on an `ArrayType(p, _)` token, `parse_arg_type` runs the
inner primitive through the `parse_primitive_type` rules but discards the
outcome: it always returns the array token successfully — consuming the
token when the inner primitive is valid, and leaving the state completely
unchanged (no error, no consumption) when it is invalid. -/
theorem parse_arg_type_array_amended (s : ParserState) (p : PrimitiveEVMType)
    (dims : List Nat) (t : Token)
    (hcur : s.current_token.kind = .ArrayType p dims)
    (hnext : s.tokens.get? (s.cursor + 1) = some t) :
    (validPrimB p = true → parse_arg_type s = .ok (.ArrayType p dims)
        ⟨s.tokens, s.cursor + 1, t, s.base, s.spans ++ [s.current_token.span]⟩)
    ∧ (validPrimB p = false → parse_arg_type s = .ok (.ArrayType p dims) s) := by
  have hmk := match_kind_self hnext
  have hcons := consume_eq_some hnext
  rw [hcur] at hmk
  constructor
  · intro hv
    simp only [parse_arg_type, hcur]
    cases p with
    | Uint n =>
        have hb : 8 ≤ n ∧ n ≤ 256 ∧ n % 8 = 0 := by
          simpa [validPrimB] using hv
        simp only [parse_primitive_type]
        rw [if_neg (by omega), hcur, hmk]
    | Int n =>
        have hb : 8 ≤ n ∧ n ≤ 256 ∧ n % 8 = 0 := by
          simpa [validPrimB] using hv
        rw [parse_primitive_type_int_ok hnext hb]
    | Bytes n =>
        have hb : 1 ≤ n ∧ n ≤ 32 := by simpa [validPrimB] using hv
        simp only [parse_primitive_type]
        rw [if_neg (by omega), hcur, hmk]
    | Bool => simp only [parse_primitive_type]; rw [hcur, hmk]
    | Address => simp only [parse_primitive_type]; rw [hcur, hmk]
    | String => simp only [parse_primitive_type]; rw [hcur, hmk]
    | DynBytes => simp only [parse_primitive_type]; rw [hcur, hmk]
  · intro hv
    simp only [parse_arg_type, hcur]
    cases p with
    | Uint n =>
        have hb : ¬(8 ≤ n ∧ n ≤ 256 ∧ n % 8 = 0) := by
          simpa [validPrimB] using hv
        simp only [parse_primitive_type]
        rw [if_pos (by omega)]
    | Int n =>
        have hb : ¬(8 ≤ n ∧ n ≤ 256 ∧ n % 8 = 0) := by
          simpa [validPrimB] using hv
        simp only [parse_primitive_type]
        rw [if_pos (by omega)]
    | Bytes n =>
        have hb : ¬(1 ≤ n ∧ n ≤ 32) := by simpa [validPrimB] using hv
        simp only [parse_primitive_type]
        rw [if_pos (by omega)]
    | Bool => exact absurd hv (by simp [validPrimB])
    | Address => exact absurd hv (by simp [validPrimB])
    | String => exact absurd hv (by simp [validPrimB])
    | DynBytes => exact absurd hv (by simp [validPrimB])

/-- Concrete state for the C5 witness: cursor on `uint256[2]`. -/
def c5wstate : ParserState :=
  ⟨[⟨.ArrayType (.Uint 256) [2], ⟨0, 10⟩⟩, ⟨.Eof, ⟨10, 10⟩⟩], 0,
   ⟨.ArrayType (.Uint 256) [2], ⟨0, 10⟩⟩, none, []⟩

/-- Witness for the amended C5: on a valid `uint256[2]` the hypotheses hold
and the array token is returned with the token consumed. -/
theorem parse_arg_type_array_amended_witness :
    validPrimB (.Uint 256) = true ∧
    parse_arg_type c5wstate = .ok (.ArrayType (.Uint 256) [2])
      ⟨c5wstate.tokens, c5wstate.cursor + 1, ⟨.Eof, ⟨10, 10⟩⟩, c5wstate.base,
       c5wstate.spans ++ [c5wstate.current_token.span]⟩ := by
  refine ⟨by decide, ?_⟩
  exact (parse_arg_type_array_amended c5wstate (.Uint 256) [2] ⟨.Eof, ⟨10, 10⟩⟩
    rfl rfl).1 (by decide)

/-! ## C7: function-name mismatch error kind -/

/-- Concrete state for the C7 counterexample: `function 0 …` — the token
after the `function` keyword is a `Num`, not an `Ident`. -/
def c7state : ParserState :=
  ⟨[⟨.Function, ⟨0, 8⟩⟩, ⟨.Num 0, ⟨9, 10⟩⟩, ⟨.Eof, ⟨10, 10⟩⟩], 0,
   ⟨.Function, ⟨0, 8⟩⟩, none, []⟩

/-- Counterexample for C7: with a `Num` after the `function` keyword, the
claim says parsing fails with `InvalidName`; in fact `match_kind` fails
first, so the error kind is `UnexpectedType(Ident sentinel)` and no
`InvalidName` error is ever produced here. -/
theorem parse_function_invalid_name_counterexample :
    parse_function (fun _ => []) 5 c7state =
      .err ⟨.UnexpectedType (.Ident "x"), [⟨0, 8⟩]⟩ ∧
    ∀ k sp, parse_function (fun _ => []) 5 c7state ≠ .err ⟨.InvalidName k, sp⟩ := by
  have h : parse_function (fun _ => []) 5 c7state =
      .err ⟨.UnexpectedType (.Ident "x"), [⟨0, 8⟩]⟩ := rfl
  refine ⟨h, fun k sp hk => ?_⟩
  rw [h] at hk
  simp only [POut.err.injEq, ParserError.mk.injEq] at hk
  exact ParserErrorKind.noConfusion hk.1

/-- C7 (amended): in `parse_function`, if the token following the `function`
keyword is not an `Ident`, parsing fails with
`UnexpectedType(Ident sentinel)` raised by `match_kind` (the `InvalidName`
arm of `parse_function` is unreachable on such streams), with the span trail
extended by the `function` keyword's span. -/
theorem parse_function_name_mismatch (keccak : String → List Nat) (fuel : Nat)
    (s : ParserState) (t : Token)
    (h1 : s.current_token.kind = .Function)
    (h2 : s.tokens.get? (s.cursor + 1) = some t)
    (h3 : ∀ str, t.kind ≠ .Ident str) :
    parse_function keccak fuel s =
      .err ⟨.UnexpectedType (.Ident "x"), s.spans ++ [s.current_token.span]⟩ := by
  have hmk := match_kind_self h2
  rw [h1] at hmk
  have hne : ¬((t.kind).disc = (TokenKind.Ident "x").disc) := not_ident_disc h3
  show (match_kind .Function s).bind _ = _
  rw [hmk]
  show (match_kind (.Ident "x")
      ⟨s.tokens, s.cursor + 1, t, s.base, s.spans ++ [s.current_token.span]⟩).bind _ = _
  simp only [match_kind]
  rw [if_neg hne]
  rfl

/-- Concrete state for the C7 witness: `function { …` — an `OpenBrace` after
the keyword. -/
def c7wstate : ParserState :=
  ⟨[⟨.Function, ⟨3, 11⟩⟩, ⟨.OpenBrace, ⟨12, 13⟩⟩, ⟨.Eof, ⟨13, 13⟩⟩], 0,
   ⟨.Function, ⟨3, 11⟩⟩, none, []⟩

/-- Witness for the amended C7: the hypotheses hold on `c7wstate` and the
failure is `UnexpectedType(Ident sentinel)`. -/
theorem parse_function_name_mismatch_witness :
    c7wstate.current_token.kind = .Function ∧
    parse_function (fun _ => []) 3 c7wstate =
      .err ⟨.UnexpectedType (.Ident "x"),
            c7wstate.spans ++ [c7wstate.current_token.span]⟩ := by
  refine ⟨rfl, ?_⟩
  exact parse_function_name_mismatch (fun _ => []) 3 c7wstate ⟨.OpenBrace, ⟨12, 13⟩⟩
    rfl rfl (fun str h => by cases h)

/-! ## C9: `peek` panics one slot before the end of the stream -/

/-- Concrete state for C9: a single-token stream with the cursor on it.
`cursor + 1` is out of range, so the claim requires `peek` to return `None`;
the guard only checks `cursor >= tokens.len()`, so the code instead reaches
`tokens.get(cursor + 1).unwrap()` and panics. -/
def c9state : ParserState := ⟨[⟨.Eof, ⟨0, 0⟩⟩], 0, ⟨.Eof, ⟨0, 0⟩⟩, none, []⟩

/-- C9: at `cursor = tokens.len() - 1` the cursor is in range but
`cursor + 1` is not, and `peek` panics (`none` in the model) instead of
returning the claimed empty value; so `peek` is not panic-free for every
cursor position. -/
theorem peek_panics_before_end :
    peek c9state = none ∧ c9state.cursor < c9state.tokens.length := by
  exact ⟨rfl, by decide⟩

/-! ## C1 / C10: every parsed argument with a type phase has `arg_type` set -/

/-- A single `parse_args` iteration with `select_type = true` always returns
an argument whose `arg_type` is set. -/
theorem parse_args_one_type {sn hi : Bool} {s : ParserState} {arg : Argument}
    {s' : ParserState} (h : parse_args_one sn true hi s = .ok arg s') :
    arg.arg_type.isSome := by
  unfold parse_args_one at h
  rcases POut.bind_ok h with ⟨pr1, sA, hA, h⟩
  rcases POut.bind_ok h with ⟨pr2, sB, hB, h⟩
  rcases POut.bind_ok h with ⟨u, sC, hC, h⟩
  simp only [POut.ok.injEq] at h
  obtain ⟨harg, -⟩ := h
  subst harg
  show pr2.1.arg_type.isSome
  have h21 : pr2.1.arg_type = pr1.1.arg_type := by
    split at hB
    · rcases POut.bind_ok hB with ⟨k, sK, hK, hB⟩
      simp only [POut.ok.injEq] at hB
      obtain ⟨hpr2, -⟩ := hB
      subst hpr2
      rfl
    · simp only [POut.ok.injEq] at hB
      obtain ⟨hpr2, -⟩ := hB
      subst hpr2
      rfl
  rw [h21]
  split at hA
  · rcases POut.bind_ok hA with ⟨t, sT, hT, hA⟩
    split at hA
    · rcases POut.bind_ok hA with ⟨v, sV, hV, hA⟩
      simp only [POut.ok.injEq] at hA
      obtain ⟨hpr1, -⟩ := hA
      subst hpr1
      rfl
    · simp only [POut.ok.injEq] at hA
      obtain ⟨hpr1, -⟩ := hA
      subst hpr1
      rfl
  · exact absurd rfl (by assumption)

/-- The `parse_args` loop with `select_type = true` preserves and extends the
set-ness of `arg_type` over the accumulated arguments. -/
theorem parse_args_loop_types (fuel : Nat) (sn hi : Bool) :
    ∀ (acc args : List Argument) (s s' : ParserState),
      (∀ a ∈ acc, a.arg_type.isSome) →
      parse_args_loop fuel sn true hi acc s = .ok args s' →
      ∀ a ∈ args, a.arg_type.isSome := by
  induction fuel with
  | zero =>
      intro acc args s s' hacc h
      simp [parse_args_loop] at h
  | succ n ih =>
      intro acc args s s' hacc h
      unfold parse_args_loop at h
      split at h
      · simp only [POut.ok.injEq] at h
        obtain ⟨hargs, -⟩ := h
        subst hargs
        exact hacc
      · rcases POut.bind_ok h with ⟨arg, s1, hone, hrec⟩
        refine ih (acc ++ [arg]) args s1 s' ?_ hrec
        intro a ha
        rcases List.mem_append.1 ha with ha | ha
        · exact hacc a ha
        · rw [List.mem_singleton.1 ha]
          exact parse_args_one_type hone

/-- `parse_args` with `select_type = true` only produces arguments whose
`arg_type` is set. -/
theorem parse_args_types {fuel : Nat} {sn hi : Bool} {s : ParserState}
    {args : List Argument} {s' : ParserState}
    (h : parse_args fuel sn true hi s = .ok args s') :
    ∀ a ∈ args, a.arg_type.isSome := by
  unfold parse_args at h
  rcases POut.bind_ok h with ⟨_, s1, _, h⟩
  rcases POut.bind_ok h with ⟨args1, s2, hloop, h⟩
  rcases POut.bind_ok h with ⟨_, s3, _, h⟩
  simp only [POut.ok.injEq] at h
  obtain ⟨hargs, -⟩ := h
  subst hargs
  exact parse_args_loop_types fuel sn hi [] args1 s1 s2 (by intro a ha; cases ha) hloop

/-- Shape of every function successfully produced by `parse_function`: the
inputs all carry a type, and the signature is the first 4 bytes of the
Keccak digest of the canonical signature string. -/
theorem parse_function_shape {keccak : String → List Nat} {fuel : Nat}
    {s : ParserState} {f : Function} {s' : ParserState}
    (h : parse_function keccak fuel s = .ok f s') :
    (∀ a ∈ f.inputs, a.arg_type.isSome) ∧
    f.signature = (keccak (f.name ++ "(" ++ String.intercalate ","
      (f.inputs.map fun (i : Argument) => i.arg_type.getD "") ++ ")")).take 4 := by
  unfold parse_function at h
  rcases POut.bind_ok h with ⟨_, s1, _, h⟩
  rcases POut.bind_ok h with ⟨_, s2, _, h⟩
  rcases POut.bind_ok h with ⟨tok, s3, _, h⟩
  rcases POut.bind_ok h with ⟨name, s4, _, h⟩
  rcases POut.bind_ok h with ⟨inputs, s5, hargs, h⟩
  rcases POut.bind_ok h with ⟨ft, s6, _, h⟩
  rcases POut.bind_ok h with ⟨u1, s7, _, h⟩
  rcases POut.bind_ok h with ⟨u2, s8, _, h⟩
  rcases POut.bind_ok h with ⟨outputs, s9, _, h⟩
  simp only [POut.ok.injEq] at h
  obtain ⟨hf, -⟩ := h
  subst hf
  exact ⟨parse_args_types hargs, rfl⟩

/-- C10: every `Argument` in the `inputs` of a `Function` produced by
`parse_function` has `arg_type` set to `Some` value — `parse_args` with
`select_type = true` either assigns a type to each argument or fails, so the
`unwrap` of `arg_type` in the selector computation never panics (the model's
`Option.getD` default is never used). -/
theorem parse_function_inputs_typed (keccak : String → List Nat) (fuel : Nat)
    (s : ParserState) (f : Function) (s' : ParserState)
    (h : parse_function keccak fuel s = .ok f s') :
    ∀ a ∈ f.inputs, a.arg_type.isSome :=
  (parse_function_shape h).1

/-- Tokens of `function test ( uint256 ) view returns ( uint256 )` with the
cursor on the `function` keyword, for the C10 witness. -/
def c10state : ParserState :=
  ⟨[⟨.Function, ⟨0, 8⟩⟩, ⟨.Ident "test", ⟨9, 13⟩⟩, ⟨.OpenParen, ⟨13, 14⟩⟩,
    ⟨.PrimitiveType (.Uint 256), ⟨14, 21⟩⟩, ⟨.CloseParen, ⟨21, 22⟩⟩,
    ⟨.View, ⟨23, 27⟩⟩, ⟨.Returns, ⟨28, 35⟩⟩, ⟨.OpenParen, ⟨36, 37⟩⟩,
    ⟨.PrimitiveType (.Uint 256), ⟨37, 44⟩⟩, ⟨.CloseParen, ⟨44, 45⟩⟩,
    ⟨.Eof, ⟨45, 45⟩⟩], 0, ⟨.Function, ⟨0, 8⟩⟩, none, []⟩

/-- Witness for C10: `parse_function` succeeds on `c10state` and every input
argument carries a type. -/
theorem parse_function_inputs_typed_witness :
    ∃ f s', parse_function (fun _ => []) 9 c10state = .ok f s' ∧
      ∀ a ∈ Function.inputs f, a.arg_type.isSome := by
  refine ⟨_, _, rfl, ?_⟩
  exact parse_function_inputs_typed (fun _ => []) 9 c10state _ _ rfl

/-- C1: for every function declaration successfully parsed by
`parse_function`, the `signature` field is the first 4 bytes of the
Keccak-256 digest (the hasher being the spec's opaque external primitive,
universally quantified here) of the string formed by the function name, an
opening parenthesis, the comma-joined `arg_type` strings of its inputs (not
names, not indexed flags), and a closing parenthesis; when `inputs` is empty
the hashed string is the name followed by `"()"`. -/
theorem parse_function_selector (keccak : String → List Nat) (fuel : Nat)
    (s : ParserState) (f : Function) (s' : ParserState)
    (h : parse_function keccak fuel s = .ok f s') :
    ∃ ts : List String,
      f.inputs.map Argument.arg_type = ts.map some ∧
      f.signature =
        (keccak (f.name ++ "(" ++ String.intercalate "," ts ++ ")")).take 4 ∧
      (f.inputs = [] → f.signature = (keccak (f.name ++ "()")).take 4) := by
  obtain ⟨hsome, hsig⟩ := parse_function_shape h
  refine ⟨f.inputs.map fun (i : Argument) => i.arg_type.getD "", ?_, hsig, ?_⟩
  · rw [List.map_map]
    refine List.map_congr_left ?_
    intro a ha
    have := hsome a ha
    cases hx : a.arg_type with
    | none => rw [hx] at this; cases this
    | some v => simp [Function.comp, hx]
  · intro he
    rw [he] at hsig
    have hstr : f.name ++ "(" ++ String.intercalate ","
        (([] : List Argument).map fun (i : Argument) => i.arg_type.getD "") ++ ")" =
        f.name ++ "()" := by
      rw [show String.intercalate ","
            (([] : List Argument).map fun (i : Argument) => i.arg_type.getD "") = ""
          from rfl]
      rw [String.append_empty, String.append_assoc]
      rfl
    rw [hstr] at hsig
    exact hsig

/-- Tokens of `function bar ( bool a , uint8 b ) pure returns ( )` with the
cursor on the `function` keyword, for the C1 witness. -/
def c1state : ParserState :=
  ⟨[⟨.Function, ⟨0, 8⟩⟩, ⟨.Ident "bar", ⟨9, 12⟩⟩, ⟨.OpenParen, ⟨12, 13⟩⟩,
    ⟨.PrimitiveType .Bool, ⟨13, 17⟩⟩, ⟨.Ident "a", ⟨18, 19⟩⟩, ⟨.Comma, ⟨19, 20⟩⟩,
    ⟨.PrimitiveType (.Uint 8), ⟨21, 26⟩⟩, ⟨.Ident "b", ⟨27, 28⟩⟩,
    ⟨.CloseParen, ⟨28, 29⟩⟩, ⟨.Pure, ⟨30, 34⟩⟩, ⟨.Returns, ⟨35, 42⟩⟩,
    ⟨.OpenParen, ⟨43, 44⟩⟩, ⟨.CloseParen, ⟨44, 45⟩⟩, ⟨.Eof, ⟨45, 45⟩⟩],
   0, ⟨.Function, ⟨0, 8⟩⟩, none, []⟩

/-- Witness for C1: `parse_function` succeeds on `c1state` and the selector
law holds there. -/
theorem parse_function_selector_witness :
    ∃ f s', parse_function (fun _ => []) 9 c1state = .ok f s' ∧
      ∃ ts : List String,
        (Function.inputs f).map Argument.arg_type = ts.map some ∧
        Function.signature f =
          ((fun _ => ([] : List Nat))
            (Function.name f ++ "(" ++ String.intercalate "," ts ++ ")")).take 4 ∧
        (Function.inputs f = [] →
          Function.signature f =
            ((fun _ => ([] : List Nat)) (Function.name f ++ "()")).take 4) := by
  refine ⟨_, _, rfl, ?_⟩
  exact parse_function_selector (fun _ => []) 9 c1state _ _ rfl

/-! ## C2: table size law -/

/-- The table size exactly as the claim states it: `len(body) * 32` for a
`JumpTable`, `len(body) * 2` for a `JumpTablePacked`, and the sum of the
identifier lengths of the body's `LabelCall` statements divided by 2 for a
`CodeTable`. -/
def tableSizeSpec : TableKind → List Statement → Nat
  | .JumpTable, body => body.length * 32
  | .JumpTablePacked, body => body.length * 2
  | .CodeTable, body =>
      (body.filterMap fun st =>
        match st.ty with
        | .LabelCall l => some l.length
        | _ => none).sum / 2

/-- The code's per-statement length map sums to the claim's
sum-over-`LabelCall`s. -/
theorem sum_codeTableStmtLen (l : List Statement) :
    (l.map codeTableStmtLen).sum =
    (l.filterMap fun st =>
      match st.ty with
      | .LabelCall lbl => some lbl.length
      | _ => none).sum := by
  induction l with
  | nil => rfl
  | cons st rest ih =>
      rw [List.map_cons, List.sum_cons, List.filterMap_cons]
      cases hst : st.ty <;>
        simp only [codeTableStmtLen, hst, List.sum_cons, ih, Nat.zero_add]

/-- `str_to_bytes32` always produces exactly 32 bytes. -/
theorem str_to_bytes32_length (s : String) : (str_to_bytes32 s).length = 32 := by
  simp [str_to_bytes32]

/-- C2: for every table declaration successfully parsed by `parse_table`,
`size_bytes32` is a 32-byte value and is the `str_to_bytes32` encoding of
the size computed as: number of body statements times 32 for a `JumpTable`,
number of body statements times 2 for a `JumpTablePacked`, and the sum of
the identifier lengths of the body's `LabelCall` statements divided by 2 for
a `CodeTable`. -/
theorem parse_table_size (fuel : Nat) (s : ParserState) (td : TableDefinition)
    (s' : ParserState) (h : parse_table fuel s = .ok td s') :
    td.size_bytes32.length = 32 ∧
    td.size_bytes32 =
      str_to_bytes32 (Nat.repr (tableSizeSpec td.kind td.statements)) := by
  unfold parse_table at h
  rcases POut.bind_ok h with ⟨k, s1, _, h⟩
  rcases POut.bind_ok h with ⟨kind, s2, _, h⟩
  rcases POut.bind_ok h with ⟨nk, s3, _, h⟩
  rcases POut.bind_ok h with ⟨u1, s4, _, h⟩
  rcases POut.bind_ok h with ⟨u2, s5, _, h⟩
  rcases POut.bind_ok h with ⟨u3, s6, _, h⟩
  rcases POut.bind_ok h with ⟨stmts, s7, _, h⟩
  simp only [POut.ok.injEq] at h
  obtain ⟨htd, -⟩ := h
  subst htd
  refine ⟨str_to_bytes32_length _, ?_⟩
  show str_to_bytes32 _ = str_to_bytes32 (Nat.repr (tableSizeSpec kind stmts))
  cases kind with
  | JumpTable => rfl
  | JumpTablePacked => rfl
  | CodeTable =>
      show str_to_bytes32 (Nat.repr ((stmts.map codeTableStmtLen).sum / 2)) = _
      rw [sum_codeTableStmtLen]
      rfl

/-- The parser state for `jumptable__packed T { a b c }` with the cursor on
the table keyword, for the C2 witness. -/
def c2state : ParserState :=
  ⟨[⟨.JumpTablePacked, ⟨0, 17⟩⟩, ⟨.Ident "T", ⟨18, 19⟩⟩, ⟨.OpenBrace, ⟨20, 21⟩⟩,
    ⟨.Ident "a", ⟨22, 23⟩⟩, ⟨.Ident "b", ⟨24, 25⟩⟩, ⟨.Ident "c", ⟨26, 27⟩⟩,
    ⟨.CloseBrace, ⟨28, 29⟩⟩, ⟨.Eof, ⟨29, 29⟩⟩], 0,
   ⟨.JumpTablePacked, ⟨0, 17⟩⟩, none, []⟩

/-- Witness for C2: the packed jump table `T { a b c }` parses and its size
bytes satisfy the size law (three statements, size 6). -/
theorem parse_table_size_witness :
    ∃ td s', parse_table 20 c2state = .ok td s' ∧
      (TableDefinition.size_bytes32 td).length = 32 ∧
      TableDefinition.size_bytes32 td =
        str_to_bytes32 (Nat.repr (tableSizeSpec (TableDefinition.kind td)
          (TableDefinition.statements td))) := by
  refine ⟨_, _, rfl, ?_⟩
  exact parse_table_size 20 c2state _ _ rfl

/-! ## C6: trivia independence -/

/-- C6: parsing is invariant under inserting or removing `Whitespace` and
`Comment` tokens — two token streams with the same trivia-free filtrate
produce identical parse outcomes, because `parse` removes all trivia tokens
and resets the cursor before doing anything else. -/
theorem parse_trivia_invariant (keccak : String → List Nat) (env : FsEnv)
    (fuel : Nat) (base : Option String) (ts1 ts2 : List Token)
    (h : ts1.filter (fun t => !(isTrivia t.kind)) =
         ts2.filter (fun t => !(isTrivia t.kind))) :
    parseTokens keccak env fuel ts1 base = parseTokens keccak env fuel ts2 base := by
  unfold parseTokens
  cases ts1 with
  | nil =>
      cases ts2 with
      | nil => rfl
      | cons b m =>
          simp only [List.filter_nil] at h
          rw [← h]
          rfl
  | cons a l =>
      cases ts2 with
      | nil =>
          simp only [List.filter_nil] at h
          rw [h]
          rfl
      | cons b m =>
          simp only [List.head?_cons]
          rw [h]

/-- A trivial filesystem environment (no import resolves). -/
def fsEnv0 : FsEnv := ⟨fun _ _ => none, fun _ => false, fun _ => false⟩

/-- The stream `EOF` without trivia, for the C6 witness. -/
def c6tokens1 : List Token := [⟨.Eof, ⟨4, 4⟩⟩]

/-- The stream `EOF` with a whitespace and a comment inserted, for the C6
witness. -/
def c6tokens2 : List Token :=
  [⟨.Whitespace, ⟨0, 1⟩⟩, ⟨.Comment "c", ⟨1, 4⟩⟩, ⟨.Eof, ⟨4, 4⟩⟩]

/-- Witness for C6: the two concrete streams differ only by trivia and parse
identically. -/
theorem parse_trivia_invariant_witness :
    c6tokens1.filter (fun t => !(isTrivia t.kind)) =
      c6tokens2.filter (fun t => !(isTrivia t.kind)) ∧
    parseTokens (fun _ => []) fsEnv0 4 c6tokens1 none =
      parseTokens (fun _ => []) fsEnv0 4 c6tokens2 none := by
  refine ⟨rfl, ?_⟩
  exact parse_trivia_invariant (fun _ => []) fsEnv0 4 none c6tokens1 c6tokens2 rfl

/-! ## C8: an AST node with an empty span list -/

/-- Tokens of `#define macro M(,) = takes(0) returns(0) {}` — note the bare
comma in the parameter list. -/
def c8tokens : List Token :=
  [⟨.Define, ⟨0, 7⟩⟩, ⟨.Macro, ⟨8, 13⟩⟩, ⟨.Ident "M", ⟨14, 15⟩⟩,
   ⟨.OpenParen, ⟨15, 16⟩⟩, ⟨.Comma, ⟨16, 17⟩⟩, ⟨.CloseParen, ⟨17, 18⟩⟩,
   ⟨.Assign, ⟨19, 20⟩⟩, ⟨.Takes, ⟨21, 26⟩⟩, ⟨.OpenParen, ⟨26, 27⟩⟩,
   ⟨.Num 0, ⟨27, 28⟩⟩, ⟨.CloseParen, ⟨28, 29⟩⟩, ⟨.Returns, ⟨30, 37⟩⟩,
   ⟨.OpenParen, ⟨37, 38⟩⟩, ⟨.Num 0, ⟨38, 39⟩⟩, ⟨.CloseParen, ⟨39, 40⟩⟩,
   ⟨.OpenBrace, ⟨41, 42⟩⟩, ⟨.CloseBrace, ⟨42, 43⟩⟩, ⟨.Eof, ⟨43, 43⟩⟩]

/-- C8 fails on the code: on `#define macro M(,) = takes(0) returns(0) {}`
the parse succeeds and the macro's single parameter is an `Argument` whose
span list is empty — the bare comma is consumed without any token being
attributed to the argument, contradicting the claim that every AST node
carries a non-empty span list. -/
theorem parse_empty_span_argument :
    ∃ c s', parseTokens (fun _ => []) fsEnv0 30 c8tokens none = .ok c s' ∧
      c.macros.map (fun m => m.parameters.map Argument.span) = [[[]]] := by
  refine ⟨_, _, rfl, rfl⟩

end Huff
